import Mathlib

/-!
Verification of the TOPSIS web service (src/app.py).

The numeric core `run_topsis` (lines 113-140 of app.py) is embedded over the
real numbers: the decision matrix (the criterion columns, `df.iloc[:, 1:]`)
becomes a function `Fin (n+1) → Fin m → ℝ` (numpy raises on an empty `max`,
so at least one row is structural), the weight vector a function
`Fin m → ℝ`, and the impact vector a function `Fin m → Bool`
(`true` stands for the character "+", the `else` branch of the source
covers everything else, i.e. "-" after validation).

Floating point is modelled by exact real arithmetic.  The one place where
the float semantics matters is non-finite values: when a criterion column
has Euclidean norm 0 the division `data / norm` yields NaN for that column
and every downstream score is NaN; when `s_pos[i] + s_neg[i] = 0` the score
of row `i` is NaN (0/0).  In both cases `df_out["Topsis Score"].rank(...)`
leaves NaN in place and `.astype(int)` raises, so `run_topsis` never
returns a table.  The embedding therefore returns `Option`: `none` exactly
when some column norm is zero or some score denominator is zero, and
`some (scores, ranks)` otherwise (in which case every intermediate value is
a finite real and the real-arithmetic model is exact).

`pandas.DataFrame.rank(ascending=False)` uses the default "average" method:
a row's rank is (number of strictly greater scores) + (ties + 1)/2, and
`.astype(int)` truncates toward zero, which on these positive ranks is the
floor.  `df_out.sort_values("Rank")` only reorders rows for presentation;
the embedding keeps the row-indexed association of scores and ranks.
-/

namespace Topsis

variable {n m : ℕ}

/-- Euclidean norm of criterion column `j`:
`norm = np.sqrt((data ** 2).sum(axis=0))` (app.py line 118). -/
noncomputable def norm (d : Fin (n+1) → Fin m → ℝ) (j : Fin m) : ℝ :=
  Real.sqrt (∑ i, (d i j) ^ 2)

/-- Normalized matrix: `norm_data = data / norm` (app.py line 119). -/
noncomputable def norm_data (d : Fin (n+1) → Fin m → ℝ) (i : Fin (n+1)) (j : Fin m) : ℝ :=
  d i j / norm d j

/-- Weighted normalized matrix: `weighted = norm_data * weights` (line 120). -/
noncomputable def weighted (d : Fin (n+1) → Fin m → ℝ) (w : Fin m → ℝ)
    (i : Fin (n+1)) (j : Fin m) : ℝ :=
  norm_data d i j * w j

/-- Per-column ideal best: `ideal_best[i] = weighted[:, i].max()` for impact
"+", `.min()` otherwise (app.py lines 124-130). -/
noncomputable def ideal_best (d : Fin (n+1) → Fin m → ℝ) (w : Fin m → ℝ)
    (imp : Fin m → Bool) (j : Fin m) : ℝ :=
  if imp j then Finset.univ.sup' ⟨0, Finset.mem_univ 0⟩ (fun i => weighted d w i j)
  else Finset.univ.inf' ⟨0, Finset.mem_univ 0⟩ (fun i => weighted d w i j)

/-- Per-column ideal worst: `ideal_worst[i] = weighted[:, i].min()` for impact
"+", `.max()` otherwise (app.py lines 124-130). -/
noncomputable def ideal_worst (d : Fin (n+1) → Fin m → ℝ) (w : Fin m → ℝ)
    (imp : Fin m → Bool) (j : Fin m) : ℝ :=
  if imp j then Finset.univ.inf' ⟨0, Finset.mem_univ 0⟩ (fun i => weighted d w i j)
  else Finset.univ.sup' ⟨0, Finset.mem_univ 0⟩ (fun i => weighted d w i j)

/-- Separation from the ideal best:
`s_pos = np.sqrt(((weighted - ideal_best) ** 2).sum(axis=1))` (line 132). -/
noncomputable def s_pos (d : Fin (n+1) → Fin m → ℝ) (w : Fin m → ℝ)
    (imp : Fin m → Bool) (i : Fin (n+1)) : ℝ :=
  Real.sqrt (∑ j, (weighted d w i j - ideal_best d w imp j) ^ 2)

/-- Separation from the ideal worst:
`s_neg = np.sqrt(((weighted - ideal_worst) ** 2).sum(axis=1))` (line 133). -/
noncomputable def s_neg (d : Fin (n+1) → Fin m → ℝ) (w : Fin m → ℝ)
    (imp : Fin m → Bool) (i : Fin (n+1)) : ℝ :=
  Real.sqrt (∑ j, (weighted d w i j - ideal_worst d w imp j) ^ 2)

/-- Closeness score: `score = s_neg / (s_pos + s_neg)` (app.py line 134). -/
noncomputable def score (d : Fin (n+1) → Fin m → ℝ) (w : Fin m → ℝ)
    (imp : Fin m → Bool) (i : Fin (n+1)) : ℝ :=
  s_neg d w imp i / (s_pos d w imp i + s_neg d w imp i)

/-- Number of rows whose score is strictly greater than row `i`'s. -/
noncomputable def countAbove (s : Fin (n+1) → ℝ) (i : Fin (n+1)) : ℕ :=
  (Finset.univ.filter (fun k => s i < s k)).card

/-- Number of rows whose score equals row `i`'s (the tie group, `i` included). -/
noncomputable def countEq (s : Fin (n+1) → ℝ) (i : Fin (n+1)) : ℕ :=
  (Finset.univ.filter (fun k => s k = s i)).card

/-- Average rank: `df_out["Topsis Score"].rank(ascending=False)`
(app.py line 138), pandas default "average" method: the average of the positions the tie group of row
`i` occupies in the descending sort. -/
noncomputable def rankAvg (s : Fin (n+1) → ℝ) (i : Fin (n+1)) : ℚ :=
  (countAbove s i : ℚ) + ((countEq s i : ℚ) + 1) / 2

/-- Integer rank: `.astype(int)` (line 138), truncation toward zero of the average
rank, which is the floor since every average rank is at least 1. -/
noncomputable def rankInt (s : Fin (n+1) → ℝ) (i : Fin (n+1)) : ℤ :=
  ⌊rankAvg s i⌋

/-- The scorer `run_topsis` (app.py lines 113-140).  Returns `none` exactly when the
float pipeline would put a NaN in the score column — some column norm is 0,
or some row has `s_pos + s_neg = 0` — because `.astype(int)` then raises
and the exception propagates to the caller (caught at app.py line 234).
Otherwise every intermediate float is finite and the function returns the
score and the integer rank of every row. -/
noncomputable def run_topsis (d : Fin (n+1) → Fin m → ℝ) (w : Fin m → ℝ)
    (imp : Fin m → Bool) : Option ((Fin (n+1) → ℝ) × (Fin (n+1) → ℤ)) :=
  if (∃ j, norm d j = 0) ∨ (∃ i, s_pos d w imp i + s_neg d w imp i = 0) then none
  else some (score d w imp, fun i => rankInt (score d w imp) i)

/-! Concrete single-criterion inputs used to exercise the pipeline. -/

/-- Weight vector (1,) of the running single-criterion examples. -/
noncomputable def W1 : Fin 1 → ℝ := ![1]

/-- Impact vector ("+",) of the running single-criterion examples. -/
def I1 : Fin 1 → Bool := ![true]

/-- Two-option single-criterion matrix with values 3 and 1. -/
noncomputable def D2 : Fin 2 → Fin 1 → ℝ := ![![3], ![1]]

/-- Three-option single-criterion matrix with values 3, 3, 1: a 2-way top tie. -/
noncomputable def D3 : Fin 3 → Fin 1 → ℝ := ![![3], ![3], ![1]]

/-- Four-option single-criterion matrix with values 3, 3, 3, 1: a 3-way top tie. -/
noncomputable def D4 : Fin 4 → Fin 1 → ℝ := ![![3], ![3], ![3], ![1]]

/-- All-zero 2-by-1 decision matrix. -/
noncomputable def D0 : Fin 2 → Fin 1 → ℝ := ![![0], ![0]]

/-- Two-by-two decision matrix for the sign-free weight check. -/
noncomputable def D9 : Fin 2 → Fin 2 → ℝ := ![![1, 2], ![2, 1]]

/-- The input matrix with every value of column `j0` multiplied by `c`. -/
noncomputable def scaleCol (d : Fin (n+1) → Fin m → ℝ) (j0 : Fin m) (c : ℝ) :
    Fin (n+1) → Fin m → ℝ :=
  fun i j => if j = j0 then c * d i j else d i j

/-! The Flask request handlers (app.py lines 165-260), embedded as pure
functions over already-decoded request data.  HTTP decoding, CSV parsing
and SMTP transport are I/O glue: the parsed data frame arrives as an
`Except` (the error message of a missing/empty/unparseable upload,
lines 182-196), the float-parse of the weights as an `Option`
(line 200; the impacts split on line 201 cannot fail), and the outcome of
`send_email_with_csv` as a success flag and message.  `to_csv` (line 224)
is an injective encoding, so the LAST_RESULT_CSV buffer is modelled by the
value it encodes. -/

/-- A stored result: the data frame with its score and rank columns
(the contents of the CSV written at lines 223-226). -/
structure CsvData where
  rows : ℕ
  cols : ℕ
  df : Fin (rows+1) → Fin cols → ℝ
  scores : Fin (rows+1) → ℝ
  ranks : Fin (rows+1) → ℤ

/-- What one POST request produces: the flash message, the error flag, the
rendered result table (`result_table`), whether `run_topsis` was entered
(line 221), and the value of LAST_RESULT_CSV afterwards. -/
structure Outcome where
  message : String
  error : Bool
  resultTable : Option CsvData
  invoked : Bool
  lastResult : Option CsvData

/-- The call `run_topsis(df, weights, impacts)` made by the handler (line 221):
the validated weight and impact lists are positionally aligned with the
criteria columns. -/
noncomputable def run_topsisOn (n m : ℕ) (d : Fin (n+1) → Fin m → ℝ)
    (w : List ℝ) (impacts : List String)
    (hw : m = w.length) (hi : m = impacts.length) :
    Option ((Fin (n+1) → ℝ) × (Fin (n+1) → ℤ)) :=
  run_topsis d (fun j => w.get ⟨j, hw ▸ j.isLt⟩)
    (fun j => impacts.get ⟨j, hi ▸ j.isLt⟩ == "+")

/-- The POST branch of the `index` route (app.py lines 176-236).  The
checks mirror lines 208-217 in order: length mismatch between weights and
impacts, then criteria-column count (`df.shape[1] - 1 != len(weights)`),
then the impact symbols (`any(i not in ["+", "-"] ...)`).  Only when all
pass is `run_topsis` invoked; an exception there (line 234) reports a
calculation error, otherwise the result is stored in LAST_RESULT_CSV and,
when an email address was supplied, the email outcome decides message and
error flag (lines 228-233). -/
noncomputable def index (n m : ℕ) :
    Except String (Fin (n+1) → Fin m → ℝ) → Option (List ℝ) → List String →
    String → Bool × String → Option CsvData → Outcome
  | .error e, _, _, _, _, last0 => ⟨e, true, none, false, last0⟩
  | .ok _, none, _, _, _, last0 =>
      ⟨"Invalid weights or impacts format.", true, none, false, last0⟩
  | .ok d, some w, impacts, email, emailSend, last0 =>
      if hli : w.length ≠ impacts.length then
        ⟨"Weights and impacts must have the same length.", true, none, false, last0⟩
      else if hm : m ≠ w.length then
        ⟨"Number of weights/impacts must match criteria columns.", true, none,
          false, last0⟩
      else if ∃ s ∈ impacts, s ≠ "+" ∧ s ≠ "-" then
        ⟨"Impacts must be + or - only.", true, none, false, last0⟩
      else
        match run_topsisOn n m d w impacts (not_ne_iff.mp hm)
          ((not_ne_iff.mp hm).trans (not_ne_iff.mp hli)) with
        | none => ⟨"Error during TOPSIS calculation.", true, none, true, last0⟩
        | some r =>
          if email ≠ "" then
            ⟨emailSend.2, !emailSend.1, some ⟨n, m, d, r.1, r.2⟩, true,
              some ⟨n, m, d, r.1, r.2⟩⟩
          else
            ⟨"TOPSIS calculated successfully.", false, some ⟨n, m, d, r.1, r.2⟩,
              true, some ⟨n, m, d, r.1, r.2⟩⟩

/-- The `/download` route (app.py lines 248-260): with nothing stored it
returns the message with HTTP status 400 (LAST_RESULT_CSV is `None` until
a computation succeeds, and a stored CSV is never the empty byte string
since the header row is always present, so `not LAST_RESULT_CSV` is
emptiness of the buffer); otherwise it serves exactly the stored result. -/
def download (last : Option CsvData) : Except (String × ℕ) CsvData :=
  match last with
  | none => .error ("No result available to download.", 400)
  | some c => .ok c

/-- Inversion of a successful `run_topsis`: the returned table is the score
and truncated-average rank of every row, the column norms are nonzero and
the score denominators are nonzero. -/
theorem run_topsis_eq_some {d : Fin (n+1) → Fin m → ℝ} {w : Fin m → ℝ}
    {imp : Fin m → Bool} {out : (Fin (n+1) → ℝ) × (Fin (n+1) → ℤ)}
    (h : run_topsis d w imp = some out) :
    out.1 = score d w imp ∧ out.2 = (fun i => rankInt (score d w imp) i) ∧
      (∀ j, norm d j ≠ 0) ∧ (∀ i, s_pos d w imp i + s_neg d w imp i ≠ 0) := by
  unfold run_topsis at h
  by_cases hc : (∃ j, norm d j = 0) ∨ (∃ i, s_pos d w imp i + s_neg d w imp i = 0)
  · rw [if_pos hc] at h; exact absurd h (by simp)
  · rw [if_neg hc] at h
    push_neg at hc
    have h' := Option.some_inj.mp h
    subst h'
    exact ⟨rfl, rfl, hc.1, hc.2⟩

/-- C1: for every decision matrix, weight vector and impact vector such that
no criterion column has zero Euclidean norm (and there is at least one row,
which is structural here), every score in a table returned by `run_topsis`
lies in the closed interval [0,1]. -/
theorem score_mem_unit_interval (d : Fin (n+1) → Fin m → ℝ) (w : Fin m → ℝ)
    (imp : Fin m → Bool) (out : (Fin (n+1) → ℝ) × (Fin (n+1) → ℤ))
    (_hnorm : ∀ j, norm d j ≠ 0)
    (h : run_topsis d w imp = some out) (i : Fin (n+1)) :
    0 ≤ out.1 i ∧ out.1 i ≤ 1 := by
  obtain ⟨hs, _, _, hden⟩ := run_topsis_eq_some h
  rw [hs]
  unfold score
  have hpos : 0 ≤ s_pos d w imp i := Real.sqrt_nonneg _
  have hneg : 0 ≤ s_neg d w imp i := Real.sqrt_nonneg _
  have hd : 0 < s_pos d w imp i + s_neg d w imp i :=
    lt_of_le_of_ne (by linarith) (Ne.symm (hden i))
  constructor
  · exact div_nonneg hneg hd.le
  · rw [div_le_one hd]; linarith

/-! Facts about the rank column: `rank(ascending=False)` (average method)
followed by `astype(int)` (truncation). -/

theorem one_le_countEq (s : Fin (n+1) → ℝ) (i : Fin (n+1)) : 1 ≤ countEq s i := by
  unfold countEq
  refine Finset.card_pos.mpr ⟨i, ?_⟩
  simp

/-- The truncated rank is at least (strictly greater count) + 1. -/
theorem rankInt_ge (s : Fin (n+1) → ℝ) (i : Fin (n+1)) :
    (countAbove s i : ℤ) + 1 ≤ rankInt s i := by
  unfold rankInt
  rw [Int.le_floor]
  unfold rankAvg
  have h1 : (1:ℚ) ≤ (countEq s i : ℚ) := by exact_mod_cast one_le_countEq s i
  push_cast
  linarith

/-- The truncated rank is at most (strictly greater count) + (tie count). -/
theorem rankInt_le (s : Fin (n+1) → ℝ) (i : Fin (n+1)) :
    rankInt s i ≤ (countAbove s i : ℤ) + (countEq s i : ℤ) := by
  unfold rankInt
  have h1 : (1:ℚ) ≤ (countEq s i : ℚ) := by exact_mod_cast one_le_countEq s i
  have h : rankAvg s i ≤ (((countAbove s i : ℤ) + (countEq s i : ℤ) : ℤ) : ℚ) := by
    unfold rankAvg
    push_cast
    linarith
  calc ⌊rankAvg s i⌋ ≤ ⌊(((countAbove s i : ℤ) + (countEq s i : ℤ) : ℤ) : ℚ)⌋ :=
        Int.floor_mono h
    _ = _ := Int.floor_intCast _

theorem countAbove_eq_zero_iff (s : Fin (n+1) → ℝ) (i : Fin (n+1)) :
    countAbove s i = 0 ↔ ∀ k, s k ≤ s i := by
  unfold countAbove
  rw [Finset.card_eq_zero, Finset.filter_eq_empty_iff]
  constructor
  · intro h k
    exact not_lt.mp (h (Finset.mem_univ k))
  · intro h k _
    exact not_lt.mpr (h k)

/-- A row gets truncated rank 1 exactly when no row scores strictly higher
and at most two rows (itself included) share its score. -/
theorem rankInt_eq_one_iff (s : Fin (n+1) → ℝ) (i : Fin (n+1)) :
    rankInt s i = 1 ↔ countAbove s i = 0 ∧ countEq s i ≤ 2 := by
  unfold rankInt
  rw [Int.floor_eq_iff]
  unfold rankAvg
  have hG : 1 ≤ countEq s i := one_le_countEq s i
  have hG1 : (1:ℚ) ≤ (countEq s i : ℚ) := by exact_mod_cast hG
  have hA0 : (0:ℚ) ≤ (countAbove s i : ℚ) := by positivity
  constructor
  · rintro ⟨h1, h2⟩
    push_cast at h1 h2
    constructor
    · by_contra hA
      have : (1:ℚ) ≤ (countAbove s i : ℚ) := by
        exact_mod_cast Nat.one_le_iff_ne_zero.mpr hA
      linarith
    · by_contra hG2
      have : (3:ℚ) ≤ (countEq s i : ℚ) := by
        exact_mod_cast not_le.mp hG2
      linarith
  · rintro ⟨hA, hG2⟩
    have hA' : (countAbove s i : ℚ) = 0 := by exact_mod_cast hA
    have hG2' : (countEq s i : ℚ) ≤ 2 := by exact_mod_cast hG2
    push_cast
    constructor
    · linarith
    · linarith

/-- Equal scores receive equal truncated ranks. -/
theorem rankInt_congr (s : Fin (n+1) → ℝ) {i k : Fin (n+1)} (h : s i = s k) :
    rankInt s i = rankInt s k := by
  unfold rankInt rankAvg countAbove countEq
  simp only [h]

/-- A strictly larger score receives a strictly smaller truncated rank. -/
theorem rankInt_lt_of_gt (s : Fin (n+1) → ℝ) {i k : Fin (n+1)} (h : s k < s i) :
    rankInt s i < rankInt s k := by
  have hsub : (Finset.univ.filter (fun x => s i < s x)) ∪
      (Finset.univ.filter (fun x => s x = s i)) ⊆
      Finset.univ.filter (fun x => s k < s x) := by
    intro x hx
    simp only [Finset.mem_union, Finset.mem_filter, Finset.mem_univ, true_and] at hx ⊢
    rcases hx with hx | hx
    · exact lt_trans h hx
    · rw [hx]; exact h
  have hdisj : Disjoint (Finset.univ.filter (fun x => s i < s x))
      (Finset.univ.filter (fun x => s x = s i)) := by
    rw [Finset.disjoint_left]
    intro x hx1 hx2
    simp only [Finset.mem_filter, Finset.mem_univ, true_and] at hx1 hx2
    rw [hx2] at hx1
    exact lt_irrefl _ hx1
  have hcard : countAbove s i + countEq s i ≤ countAbove s k := by
    unfold countAbove countEq
    calc (Finset.univ.filter (fun x => s i < s x)).card +
          (Finset.univ.filter (fun x => s x = s i)).card
        = ((Finset.univ.filter (fun x => s i < s x)) ∪
            (Finset.univ.filter (fun x => s x = s i))).card :=
          (Finset.card_union_of_disjoint hdisj).symm
      _ ≤ (Finset.univ.filter (fun x => s k < s x)).card :=
          Finset.card_le_card hsub
  have h1 := rankInt_le s i
  have h2 := rankInt_ge s k
  have h3 : (countAbove s i : ℤ) + (countEq s i : ℤ) ≤ (countAbove s k : ℤ) := by
    exact_mod_cast hcard
  omega

theorem sup'_eq_of_max (f : Fin (n+1) → ℝ) (i0 : Fin (n+1)) (h : ∀ i, f i ≤ f i0) :
    Finset.univ.sup' ⟨0, Finset.mem_univ 0⟩ f = f i0 :=
  le_antisymm (Finset.sup'_le _ _ fun i _ => h i) (Finset.le_sup' f (Finset.mem_univ i0))

theorem inf'_eq_of_min (f : Fin (n+1) → ℝ) (i0 : Fin (n+1)) (h : ∀ i, f i0 ≤ f i) :
    Finset.univ.inf' ⟨0, Finset.mem_univ 0⟩ f = f i0 :=
  le_antisymm (Finset.inf'_le f (Finset.mem_univ i0)) (Finset.le_inf' _ _ fun i _ => h i)

theorem s_pos_single (d : Fin (n+1) → Fin 1 → ℝ) (w : Fin 1 → ℝ) (imp : Fin 1 → Bool)
    (i : Fin (n+1)) :
    s_pos d w imp i = |weighted d w i 0 - ideal_best d w imp 0| := by
  unfold s_pos
  rw [Fin.sum_univ_one, Real.sqrt_sq_eq_abs]

theorem s_neg_single (d : Fin (n+1) → Fin 1 → ℝ) (w : Fin 1 → ℝ) (imp : Fin 1 → Bool)
    (i : Fin (n+1)) :
    s_neg d w imp i = |weighted d w i 0 - ideal_worst d w imp 0| := by
  unfold s_neg
  rw [Fin.sum_univ_one, Real.sqrt_sq_eq_abs]

/-- Behaviour of the scorer on a single benefit criterion with weight 1:
with a maximising row `i0` and a minimising row `i1` of distinct values,
the run succeeds, maximisers score 1 and minimisers score 0. -/
theorem run_topsis_single (d : Fin (n+1) → Fin 1 → ℝ) (i0 i1 : Fin (n+1))
    (hmax : ∀ i, d i 0 ≤ d i0 0) (hmin : ∀ i, d i1 0 ≤ d i 0)
    (hlt : d i1 0 < d i0 0) :
    (∀ i, d i 0 = d i0 0 → score d W1 I1 i = 1) ∧
    (∀ i, d i 0 = d i1 0 → score d W1 I1 i = 0) ∧
    run_topsis d W1 I1 =
      some (score d W1 I1, fun i => rankInt (score d W1 I1) i) := by
  have hne : ∃ i, d i 0 ≠ 0 := by
    by_cases h0 : d i0 0 = 0
    · exact ⟨i1, by rw [h0] at hlt; exact ne_of_lt hlt⟩
    · exact ⟨i0, h0⟩
  obtain ⟨iw, hiw⟩ := hne
  have hsum : 0 < ∑ i, (d i 0) ^ 2 := by
    have hterm : 0 < (d iw 0) ^ 2 := pow_two_pos_of_ne_zero hiw
    have hle : (d iw 0) ^ 2 ≤ ∑ i, (d i 0) ^ 2 :=
      Finset.single_le_sum (fun i _ => sq_nonneg (d i 0)) (Finset.mem_univ iw)
    linarith
  have hν : 0 < norm d 0 := by
    unfold norm
    exact Real.sqrt_pos.mpr hsum
  have hw : ∀ i, weighted d W1 i 0 = d i 0 / norm d 0 := by
    intro i
    unfold weighted norm_data W1
    simp
  have hbest : ideal_best d W1 I1 0 = d i0 0 / norm d 0 := by
    unfold ideal_best
    rw [if_pos (show I1 0 = true from rfl)]
    rw [sup'_eq_of_max (fun i => weighted d W1 i 0) i0
      (fun i => by
        show weighted d W1 i 0 ≤ weighted d W1 i0 0
        rw [hw, hw]; exact (div_le_div_right hν).mpr (hmax i))]
    exact hw i0
  have hworst : ideal_worst d W1 I1 0 = d i1 0 / norm d 0 := by
    unfold ideal_worst
    rw [if_pos (show I1 0 = true from rfl)]
    rw [inf'_eq_of_min (fun i => weighted d W1 i 0) i1
      (fun i => by
        show weighted d W1 i1 0 ≤ weighted d W1 i 0
        rw [hw, hw]; exact (div_le_div_right hν).mpr (hmin i))]
    exact hw i1
  have hgap : 0 < d i0 0 / norm d 0 - d i1 0 / norm d 0 := by
    rw [sub_pos]
    exact (div_lt_div_right hν).mpr hlt
  have htop : ∀ i, d i 0 = d i0 0 → score d W1 I1 i = 1 := by
    intro i hi
    have hp : s_pos d W1 I1 i = 0 := by
      rw [s_pos_single, hw, hbest, hi, sub_self, abs_zero]
    have hn : s_neg d W1 I1 i = d i0 0 / norm d 0 - d i1 0 / norm d 0 := by
      rw [s_neg_single, hw, hworst, hi, abs_of_pos hgap]
    unfold score
    rw [hp, hn, zero_add, div_self (ne_of_gt hgap)]
  have hbot : ∀ i, d i 0 = d i1 0 → score d W1 I1 i = 0 := by
    intro i hi
    have hn : s_neg d W1 I1 i = 0 := by
      rw [s_neg_single, hw, hworst, hi, sub_self, abs_zero]
    unfold score
    rw [hn, zero_div]
  refine ⟨htop, hbot, ?_⟩
  unfold run_topsis
  rw [if_neg]
  push_neg
  constructor
  · intro j
    have hj : j = 0 := Subsingleton.elim j 0
    rw [hj]
    exact ne_of_gt hν
  · intro i
    have hlb : d i0 0 / norm d 0 - d i1 0 / norm d 0 ≤
        s_pos d W1 I1 i + s_neg d W1 I1 i := by
      rw [s_pos_single, s_neg_single, hbest, hworst]
      calc d i0 0 / norm d 0 - d i1 0 / norm d 0
          ≤ |d i0 0 / norm d 0 - d i1 0 / norm d 0| := le_abs_self _
        _ ≤ |d i0 0 / norm d 0 - weighted d W1 i 0| +
            |weighted d W1 i 0 - d i1 0 / norm d 0| := abs_sub_le _ _ _
        _ = |weighted d W1 i 0 - d i0 0 / norm d 0| +
            |weighted d W1 i 0 - d i1 0 / norm d 0| := by rw [abs_sub_comm]
    intro hz
    rw [hz] at hlb
    linarith

/-- The run on D2 succeeds and its scores are (1, 0). -/
theorem topsis_D2 :
    run_topsis D2 W1 I1 =
      some (score D2 W1 I1, fun i => rankInt (score D2 W1 I1) i) ∧
    score D2 W1 I1 = ![1, 0] := by
  obtain ⟨htop, hbot, hrun⟩ := run_topsis_single D2 0 1
    (fun i => by fin_cases i <;> norm_num [D2])
    (fun i => by fin_cases i <;> norm_num [D2])
    (by norm_num [D2])
  refine ⟨hrun, funext fun i => ?_⟩
  fin_cases i
  · exact htop _ rfl
  · exact hbot _ rfl

/-- The run on D3 succeeds and its scores are (1, 1, 0): a 2-way top tie. -/
theorem topsis_D3 :
    run_topsis D3 W1 I1 =
      some (score D3 W1 I1, fun i => rankInt (score D3 W1 I1) i) ∧
    score D3 W1 I1 = ![1, 1, 0] := by
  obtain ⟨htop, hbot, hrun⟩ := run_topsis_single D3 0 2
    (fun i => by fin_cases i <;> norm_num [D3])
    (fun i => by fin_cases i <;> norm_num [D3])
    (by norm_num [D3])
  refine ⟨hrun, funext fun i => ?_⟩
  fin_cases i
  · exact htop _ rfl
  · exact htop _ rfl
  · exact hbot _ rfl

/-- The run on D4 succeeds and its scores are (1, 1, 1, 0): a 3-way top tie. -/
theorem topsis_D4 :
    run_topsis D4 W1 I1 =
      some (score D4 W1 I1, fun i => rankInt (score D4 W1 I1) i) ∧
    score D4 W1 I1 = ![1, 1, 1, 0] := by
  obtain ⟨htop, hbot, hrun⟩ := run_topsis_single D4 0 3
    (fun i => by fin_cases i <;> norm_num [D4])
    (fun i => by fin_cases i <;> norm_num [D4])
    (by norm_num [D4])
  refine ⟨hrun, funext fun i => ?_⟩
  fin_cases i
  · exact htop _ rfl
  · exact htop _ rfl
  · exact htop _ rfl
  · exact hbot _ rfl

theorem norm_D2_ne (j : Fin 1) : norm D2 j ≠ 0 := by
  have hj : j = 0 := Subsingleton.elim j 0
  rw [hj]
  unfold norm
  rw [Fin.sum_univ_two]
  have h : D2 0 0 ^ 2 + D2 1 0 ^ 2 = (10:ℝ) := by norm_num [D2]
  rw [h]
  exact ne_of_gt (Real.sqrt_pos.mpr (by norm_num))

/-- Witness for `score_mem_unit_interval` at the concrete input D2. -/
theorem score_mem_unit_interval_witness :
    (∀ j, norm D2 j ≠ 0) ∧ (0 ≤ score D2 W1 I1 0 ∧ score D2 W1 I1 0 ≤ 1) :=
  ⟨norm_D2_ne, score_mem_unit_interval D2 W1 I1 _ norm_D2_ne topsis_D2.1 0⟩

/-! Rank computations on the concrete tied score vectors. -/

theorem countAbove_v3_0 : countAbove (![1, 1, 0] : Fin 3 → ℝ) 0 = 0 := by
  unfold countAbove
  rw [Finset.card_filter, Fin.sum_univ_three]
  norm_num

theorem countEq_v3_0 : countEq (![1, 1, 0] : Fin 3 → ℝ) 0 = 2 := by
  unfold countEq
  rw [Finset.card_filter, Fin.sum_univ_three]
  norm_num

theorem rankAvg_v3_0 : rankAvg (![1, 1, 0] : Fin 3 → ℝ) 0 = 3 / 2 := by
  unfold rankAvg
  rw [countAbove_v3_0, countEq_v3_0]
  norm_num

theorem countAbove_v4_0 : countAbove (![1, 1, 1, 0] : Fin 4 → ℝ) 0 = 0 := by
  unfold countAbove
  rw [Finset.card_filter, Fin.sum_univ_four]
  norm_num

theorem countEq_v4_0 : countEq (![1, 1, 1, 0] : Fin 4 → ℝ) 0 = 3 := by
  unfold countEq
  rw [Finset.card_filter, Fin.sum_univ_four]
  norm_num

theorem countAbove_v4_3 : countAbove (![1, 1, 1, 0] : Fin 4 → ℝ) 3 = 3 := by
  unfold countAbove
  rw [Finset.card_filter, Fin.sum_univ_four]
  norm_num

theorem countEq_v4_3 : countEq (![1, 1, 1, 0] : Fin 4 → ℝ) 3 = 1 := by
  unfold countEq
  rw [Finset.card_filter, Fin.sum_univ_four]
  norm_num

theorem rankInt_v4_0 : rankInt (![1, 1, 1, 0] : Fin 4 → ℝ) 0 = 2 := by
  unfold rankInt rankAvg
  rw [countAbove_v4_0, countEq_v4_0]
  norm_num

theorem rankInt_v4_3 : rankInt (![1, 1, 1, 0] : Fin 4 → ℝ) 3 = 4 := by
  unfold rankInt rankAvg
  rw [countAbove_v4_3, countEq_v4_3]
  norm_num

/-- C2 counterexample: on the decision matrix with single benefit criterion
values (3, 3, 3, 1) and weight 1, `run_topsis` succeeds, the three top rows
tie at score 1, pandas assigns them average rank 2 which `astype(int)`
keeps as 2, and the bottom row gets rank 4 — no output row carries
rank 1. -/
theorem no_rank_one_cex :
    run_topsis D4 W1 I1 =
      some (score D4 W1 I1, fun i => rankInt (score D4 W1 I1) i) ∧
    rankInt (score D4 W1 I1) 0 ≠ 1 ∧ rankInt (score D4 W1 I1) 1 ≠ 1 ∧
    rankInt (score D4 W1 I1) 2 ≠ 1 ∧ rankInt (score D4 W1 I1) 3 ≠ 1 := by
  obtain ⟨hrun, hsc⟩ := topsis_D4
  refine ⟨hrun, ?_, ?_, ?_, ?_⟩ <;> rw [hsc]
  · rw [rankInt_v4_0]; norm_num
  · rw [rankInt_congr (![1, 1, 1, 0] : Fin 4 → ℝ) (show (![1, 1, 1, 0] : Fin 4 → ℝ) 1 = (![1, 1, 1, 0] : Fin 4 → ℝ) 0 from rfl), rankInt_v4_0]
    norm_num
  · rw [rankInt_congr (![1, 1, 1, 0] : Fin 4 → ℝ) (show (![1, 1, 1, 0] : Fin 4 → ℝ) 2 = (![1, 1, 1, 0] : Fin 4 → ℝ) 0 from rfl), rankInt_v4_0]
    norm_num
  · rw [rankInt_v4_3]; norm_num

/-- C2 amended: in every table returned by `run_topsis`, any row with rank 1
ties for the maximum score; and a rank-1 row exists provided at most two
rows share the maximum score (with three or more tied top rows the
truncated average rank of the top group already exceeds 1). -/
theorem rank_one_max (d : Fin (n+1) → Fin m → ℝ) (w : Fin m → ℝ)
    (imp : Fin m → Bool) (out : (Fin (n+1) → ℝ) × (Fin (n+1) → ℤ))
    (h : run_topsis d w imp = some out) :
    (∀ i, out.2 i = 1 → ∀ k, out.1 k ≤ out.1 i) ∧
    ((Finset.univ.filter (fun k => ∀ k', out.1 k' ≤ out.1 k)).card ≤ 2 →
      ∃ i, out.2 i = 1) := by
  obtain ⟨hs, hr, _, _⟩ := run_topsis_eq_some h
  constructor
  · intro i h1 k
    rw [hr] at h1
    have h2 := (rankInt_eq_one_iff _ i).mp h1
    rw [hs]
    exact (countAbove_eq_zero_iff _ i).mp h2.1 k
  · intro hcard
    simp only [hs] at hcard
    obtain ⟨i0, _, hmax⟩ :=
      Finset.exists_max_image Finset.univ (score d w imp) ⟨0, Finset.mem_univ 0⟩
    have hmax' : ∀ k, score d w imp k ≤ score d w imp i0 :=
      fun k => hmax k (Finset.mem_univ k)
    refine ⟨i0, ?_⟩
    rw [hr]
    rw [rankInt_eq_one_iff]
    constructor
    · rw [countAbove_eq_zero_iff]
      exact hmax'
    · have hset : Finset.univ.filter (fun k => score d w imp k = score d w imp i0) =
          Finset.univ.filter (fun k => ∀ k', score d w imp k' ≤ score d w imp k) := by
        ext x
        simp only [Finset.mem_filter, Finset.mem_univ, true_and]
        constructor
        · intro hx k'
          rw [hx]
          exact hmax' k'
        · intro hx
          exact le_antisymm (hmax' x) (hx i0)
      unfold countEq
      rw [hset]
      exact hcard

/-- Witness for `rank_one_max` at the concrete input D2. -/
theorem rank_one_max_witness :
    run_topsis D2 W1 I1 =
      some (score D2 W1 I1, fun i => rankInt (score D2 W1 I1) i) ∧
    (Finset.univ.filter
      (fun k => ∀ k', score D2 W1 I1 k' ≤ score D2 W1 I1 k)).card ≤ 2 ∧
    ((∀ i, rankInt (score D2 W1 I1) i = 1 →
        ∀ k, score D2 W1 I1 k ≤ score D2 W1 I1 i) ∧
     ((Finset.univ.filter
        (fun k => ∀ k', score D2 W1 I1 k' ≤ score D2 W1 I1 k)).card ≤ 2 →
      ∃ i, rankInt (score D2 W1 I1) i = 1)) := by
  refine ⟨topsis_D2.1, ?_, rank_one_max D2 W1 I1 _ topsis_D2.1⟩
  calc (Finset.univ.filter
      (fun k => ∀ k', score D2 W1 I1 k' ≤ score D2 W1 I1 k)).card
      ≤ (Finset.univ : Finset (Fin 2)).card := Finset.card_filter_le _ _
    _ = 2 := by simp

/-- C3 counterexample: on the matrix with single benefit criterion values
(3, 3, 1), the two top rows tie at score 1 and their pandas average rank is
3/2, but the emitted rank is the truncated integer 1, not the average. -/
theorem tied_rank_not_average_cex :
    run_topsis D3 W1 I1 =
      some (score D3 W1 I1, fun i => rankInt (score D3 W1 I1) i) ∧
    score D3 W1 I1 0 = score D3 W1 I1 1 ∧
    score D3 W1 I1 2 < score D3 W1 I1 0 ∧
    rankAvg (score D3 W1 I1) 0 = 3 / 2 ∧
    rankInt (score D3 W1 I1) 0 = 1 ∧
    ((rankInt (score D3 W1 I1) 0 : ℚ) ≠ rankAvg (score D3 W1 I1) 0) := by
  obtain ⟨hrun, hsc⟩ := topsis_D3
  refine ⟨hrun, ?_, ?_, ?_, ?_, ?_⟩ <;> rw [hsc]
  · rfl
  · norm_num
  · exact rankAvg_v3_0
  · unfold rankInt
    rw [rankAvg_v3_0]
    norm_num
  · unfold rankInt
    rw [rankAvg_v3_0]
    norm_num

/-- C3 amended: in every table returned by `run_topsis`, every row's rank is
the floor (the `astype(int)` truncation) of its pandas average rank — not
the average itself —, tied scores receive equal ranks, and strictly larger
scores receive strictly smaller ranks (so distinct scores get distinct
ranks in descending order). -/
theorem rank_trunc_average (d : Fin (n+1) → Fin m → ℝ) (w : Fin m → ℝ)
    (imp : Fin m → Bool) (out : (Fin (n+1) → ℝ) × (Fin (n+1) → ℤ))
    (h : run_topsis d w imp = some out) :
    (∀ i, out.2 i = ⌊rankAvg out.1 i⌋) ∧
    (∀ i k, out.1 i = out.1 k → out.2 i = out.2 k) ∧
    (∀ i k, out.1 k < out.1 i → out.2 i < out.2 k) := by
  obtain ⟨hs, hr, _, _⟩ := run_topsis_eq_some h
  refine ⟨?_, ?_, ?_⟩
  · intro i
    rw [hr, hs]
    rfl
  · intro i k hik
    rw [hs] at hik
    rw [hr]
    exact rankInt_congr _ hik
  · intro i k hik
    rw [hs] at hik
    rw [hr]
    exact rankInt_lt_of_gt _ hik

/-- Witness for `rank_trunc_average` at the concrete input D2. -/
theorem rank_trunc_average_witness :
    run_topsis D2 W1 I1 =
      some (score D2 W1 I1, fun i => rankInt (score D2 W1 I1) i) ∧
    ((∀ i, rankInt (score D2 W1 I1) i = ⌊rankAvg (score D2 W1 I1) i⌋) ∧
     (∀ i k, score D2 W1 I1 i = score D2 W1 I1 k →
        rankInt (score D2 W1 I1) i = rankInt (score D2 W1 I1) k) ∧
     (∀ i k, score D2 W1 I1 k < score D2 W1 I1 i →
        rankInt (score D2 W1 I1) i < rankInt (score D2 W1 I1) k)) :=
  ⟨topsis_D2.1, rank_trunc_average D2 W1 I1 _ topsis_D2.1⟩

/-! Scale invariance of the normalization step (C4). -/

theorem norm_scaleCol (d : Fin (n+1) → Fin m → ℝ) (j0 : Fin m) (c : ℝ)
    (hc : 0 ≤ c) (j : Fin m) :
    norm (scaleCol d j0 c) j = if j = j0 then c * norm d j else norm d j := by
  unfold norm scaleCol
  by_cases hj : j = j0
  · rw [if_pos hj]
    simp only [if_pos hj, mul_pow]
    rw [← Finset.mul_sum, Real.sqrt_mul (sq_nonneg c), Real.sqrt_sq hc]
  · rw [if_neg hj]
    simp only [if_neg hj]

theorem norm_data_scaleCol (d : Fin (n+1) → Fin m → ℝ) (j0 : Fin m) (c : ℝ)
    (hc : 0 < c) (i : Fin (n+1)) (j : Fin m) :
    norm_data (scaleCol d j0 c) i j = norm_data d i j := by
  unfold norm_data
  rw [norm_scaleCol d j0 c hc.le]
  by_cases hj : j = j0
  · rw [if_pos hj]
    show scaleCol d j0 c i j / (c * norm d j) = d i j / norm d j
    unfold scaleCol
    rw [if_pos hj]
    exact mul_div_mul_left _ _ (ne_of_gt hc)
  · rw [if_neg hj]
    show scaleCol d j0 c i j / norm d j = d i j / norm d j
    unfold scaleCol
    rw [if_neg hj]

theorem weighted_scaleCol (d : Fin (n+1) → Fin m → ℝ) (w : Fin m → ℝ) (j0 : Fin m)
    (c : ℝ) (hc : 0 < c) (i : Fin (n+1)) (j : Fin m) :
    weighted (scaleCol d j0 c) w i j = weighted d w i j := by
  unfold weighted
  rw [norm_data_scaleCol d j0 c hc]

theorem ideal_best_scaleCol (d : Fin (n+1) → Fin m → ℝ) (w : Fin m → ℝ)
    (imp : Fin m → Bool) (j0 : Fin m) (c : ℝ) (hc : 0 < c) (j : Fin m) :
    ideal_best (scaleCol d j0 c) w imp j = ideal_best d w imp j := by
  unfold ideal_best
  rw [funext fun i => weighted_scaleCol d w j0 c hc i j]

theorem ideal_worst_scaleCol (d : Fin (n+1) → Fin m → ℝ) (w : Fin m → ℝ)
    (imp : Fin m → Bool) (j0 : Fin m) (c : ℝ) (hc : 0 < c) (j : Fin m) :
    ideal_worst (scaleCol d j0 c) w imp j = ideal_worst d w imp j := by
  unfold ideal_worst
  rw [funext fun i => weighted_scaleCol d w j0 c hc i j]

theorem s_pos_scaleCol (d : Fin (n+1) → Fin m → ℝ) (w : Fin m → ℝ)
    (imp : Fin m → Bool) (j0 : Fin m) (c : ℝ) (hc : 0 < c) (i : Fin (n+1)) :
    s_pos (scaleCol d j0 c) w imp i = s_pos d w imp i := by
  unfold s_pos
  congr 1
  refine Finset.sum_congr rfl fun j _ => ?_
  rw [weighted_scaleCol d w j0 c hc, ideal_best_scaleCol d w imp j0 c hc]

theorem s_neg_scaleCol (d : Fin (n+1) → Fin m → ℝ) (w : Fin m → ℝ)
    (imp : Fin m → Bool) (j0 : Fin m) (c : ℝ) (hc : 0 < c) (i : Fin (n+1)) :
    s_neg (scaleCol d j0 c) w imp i = s_neg d w imp i := by
  unfold s_neg
  congr 1
  refine Finset.sum_congr rfl fun j _ => ?_
  rw [weighted_scaleCol d w j0 c hc, ideal_worst_scaleCol d w imp j0 c hc]

theorem score_scaleCol (d : Fin (n+1) → Fin m → ℝ) (w : Fin m → ℝ)
    (imp : Fin m → Bool) (j0 : Fin m) (c : ℝ) (hc : 0 < c) (i : Fin (n+1)) :
    score (scaleCol d j0 c) w imp i = score d w imp i := by
  unfold score
  rw [s_pos_scaleCol d w imp j0 c hc, s_neg_scaleCol d w imp j0 c hc]

/-- C4: multiplying every value of one criterion column by a positive
constant changes neither any score nor the table returned by `run_topsis`
(hence no rank). -/
theorem scale_invariance (d : Fin (n+1) → Fin m → ℝ) (w : Fin m → ℝ)
    (imp : Fin m → Bool) (j0 : Fin m) (c : ℝ) (hc : 0 < c) :
    (∀ i, score (scaleCol d j0 c) w imp i = score d w imp i) ∧
    run_topsis (scaleCol d j0 c) w imp = run_topsis d w imp := by
  refine ⟨score_scaleCol d w imp j0 c hc, ?_⟩
  unfold run_topsis
  have hcond : ((∃ j, norm (scaleCol d j0 c) j = 0) ∨
      (∃ i, s_pos (scaleCol d j0 c) w imp i + s_neg (scaleCol d j0 c) w imp i = 0)) ↔
      ((∃ j, norm d j = 0) ∨ (∃ i, s_pos d w imp i + s_neg d w imp i = 0)) := by
    apply or_congr
    · apply exists_congr
      intro j
      rw [norm_scaleCol d j0 c hc.le]
      by_cases hj : j = j0
      · rw [if_pos hj]
        constructor
        · intro h
          rcases mul_eq_zero.mp h with h | h
          · exact absurd h (ne_of_gt hc)
          · exact h
        · intro h
          rw [h, mul_zero]
      · rw [if_neg hj]
    · apply exists_congr
      intro i
      rw [s_pos_scaleCol d w imp j0 c hc, s_neg_scaleCol d w imp j0 c hc]
  have hscore : score (scaleCol d j0 c) w imp = score d w imp :=
    funext (score_scaleCol d w imp j0 c hc)
  rw [hscore]
  exact if_congr hcond rfl rfl

/-- Witness for `scale_invariance`: column 0 of D2 scaled by 2. -/
theorem scale_invariance_witness :
    (0:ℝ) < 2 ∧
    ((∀ i, score (scaleCol D2 0 2) W1 I1 i = score D2 W1 I1 i) ∧
     run_topsis (scaleCol D2 0 2) W1 I1 = run_topsis D2 W1 I1) :=
  ⟨by norm_num, scale_invariance D2 W1 I1 0 2 (by norm_num)⟩

/-! Error handling and buffer claims (C5-C10). -/

theorem run_topsis_none_of_zero_col (d : Fin (n+1) → Fin m → ℝ) (w : Fin m → ℝ)
    (imp : Fin m → Bool) (j : Fin m) (hz : ∀ i, d i j = 0) :
    run_topsis d w imp = none := by
  have hnorm : norm d j = 0 := by
    unfold norm
    have h : ∀ i ∈ Finset.univ, (d i j) ^ 2 = 0 :=
      fun i _ => by rw [hz i]; ring
    rw [Finset.sum_congr rfl h]
    simp
  unfold run_topsis
  rw [if_pos (Or.inl ⟨j, hnorm⟩)]

theorem no_bad_impacts {impacts : List String}
    (h : ∀ s ∈ impacts, s = "+" ∨ s = "-") :
    ¬∃ s ∈ impacts, s ≠ "+" ∧ s ≠ "-" := by
  rintro ⟨s, hs, h1, h2⟩
  rcases h s hs with h' | h'
  · exact h1 h'
  · exact h2 h'

theorem run_topsis_congr {d : Fin (n+1) → Fin m → ℝ} {w w' : Fin m → ℝ}
    {imp imp' : Fin m → Bool} (hw : ∀ j, w j = w' j) (hi : ∀ j, imp j = imp' j) :
    run_topsis d w imp = run_topsis d w' imp' := by
  rw [funext hw, funext hi]

/-- C5: when the decision matrix has an all-zero criterion column (zero
Euclidean norm) and the request passes validation, the handler reports the
calculation error and returns no result table: the NaN produced by the
zero division makes `astype(int)` raise, the exception is caught at
app.py line 234, and LAST_RESULT_CSV is left untouched. -/
theorem zero_norm_error (n m : ℕ) (d : Fin (n+1) → Fin m → ℝ) (w : List ℝ)
    (impacts : List String) (email : String) (emailSend : Bool × String)
    (last0 : Option CsvData)
    (hli : w.length = impacts.length) (hm : m = w.length)
    (hsym : ∀ s ∈ impacts, s = "+" ∨ s = "-")
    (j : Fin m) (hz : ∀ i, d i j = 0) :
    index n m (.ok d) (some w) impacts email emailSend last0 =
      ⟨"Error during TOPSIS calculation.", true, none, true, last0⟩ := by
  simp only [index]
  rw [dif_neg (not_ne_iff.mpr hli), dif_neg (not_ne_iff.mpr hm),
    if_neg (no_bad_impacts hsym)]
  have hrun : ∀ (h1 : m = w.length) (h2 : m = impacts.length),
      run_topsisOn n m d w impacts h1 h2 = none := fun h1 h2 =>
    run_topsis_none_of_zero_col d _ _ j hz
  rw [hrun]

/-- Witness for `zero_norm_error` on the all-zero matrix D0. -/
theorem zero_norm_error_witness :
    (([(1:ℝ)]).length = (["+"] : List String).length ∧ (1:ℕ) = ([(1:ℝ)]).length ∧
      (∀ s ∈ (["+"] : List String), s = "+" ∨ s = "-") ∧ (∀ i, D0 i 0 = 0)) ∧
    index 1 1 (.ok D0) (some [1]) ["+"] "" (true, "") none =
      ⟨"Error during TOPSIS calculation.", true, none, true, none⟩ :=
  ⟨⟨rfl, rfl, by decide, fun i => by fin_cases i <;> rfl⟩,
   zero_norm_error 1 1 D0 [1] ["+"] "" (true, "") none rfl rfl (by decide) 0
     (fun i => by fin_cases i <;> rfl)⟩

/-- C6: whenever the weight count, impact count and criteria-column count
do not all coincide, the request is rejected with one of the two length
error messages and `run_topsis` is never entered. -/
theorem mismatch_rejected (n m : ℕ) (d : Fin (n+1) → Fin m → ℝ) (w : List ℝ)
    (impacts : List String) (email : String) (emailSend : Bool × String)
    (last0 : Option CsvData)
    (hmis : ¬(w.length = impacts.length ∧ m = w.length)) :
    (index n m (.ok d) (some w) impacts email emailSend last0).error = true ∧
    (index n m (.ok d) (some w) impacts email emailSend last0).invoked = false ∧
    ((index n m (.ok d) (some w) impacts email emailSend last0).message =
        "Weights and impacts must have the same length." ∨
     (index n m (.ok d) (some w) impacts email emailSend last0).message =
        "Number of weights/impacts must match criteria columns.") := by
  simp only [index]
  by_cases hli : w.length ≠ impacts.length
  · rw [dif_pos hli]
    exact ⟨rfl, rfl, Or.inl rfl⟩
  · have hm : m ≠ w.length := fun h => hmis ⟨not_ne_iff.mp hli, h⟩
    rw [dif_neg hli, dif_pos hm]
    exact ⟨rfl, rfl, Or.inr rfl⟩

/-- Witness for `mismatch_rejected`: two weights against one criterion. -/
theorem mismatch_rejected_witness :
    ¬(([(1:ℝ), 2]).length = (["+"] : List String).length ∧
        (1:ℕ) = ([(1:ℝ), 2]).length) ∧
    ((index 1 1 (.ok D2) (some [1, 2]) ["+"] "" (true, "") none).error = true ∧
     (index 1 1 (.ok D2) (some [1, 2]) ["+"] "" (true, "") none).invoked = false ∧
     ((index 1 1 (.ok D2) (some [1, 2]) ["+"] "" (true, "") none).message =
        "Weights and impacts must have the same length." ∨
      (index 1 1 (.ok D2) (some [1, 2]) ["+"] "" (true, "") none).message =
        "Number of weights/impacts must match criteria columns.")) :=
  ⟨by decide,
   mismatch_rejected 1 1 D2 [1, 2] ["+"] "" (true, "") none (by decide)⟩

/-- C7: an impact vector containing any symbol other than "+" or "-" is
rejected with an error message and `run_topsis` is never entered (when an
earlier length check also fails, its message is shown instead, but the
request is still rejected before any arithmetic). -/
theorem bad_impact_rejected (n m : ℕ) (d : Fin (n+1) → Fin m → ℝ) (w : List ℝ)
    (impacts : List String) (email : String) (emailSend : Bool × String)
    (last0 : Option CsvData)
    (hbad : ∃ s ∈ impacts, s ≠ "+" ∧ s ≠ "-") :
    (index n m (.ok d) (some w) impacts email emailSend last0).error = true ∧
    (index n m (.ok d) (some w) impacts email emailSend last0).invoked = false := by
  simp only [index]
  by_cases hli : w.length ≠ impacts.length
  · rw [dif_pos hli]
    exact ⟨rfl, rfl⟩
  · rw [dif_neg hli]
    by_cases hm : m ≠ w.length
    · rw [dif_pos hm]
      exact ⟨rfl, rfl⟩
    · rw [dif_neg hm, if_pos hbad]
      exact ⟨rfl, rfl⟩

/-- Witness for `bad_impact_rejected`: the impact token "x". -/
theorem bad_impact_rejected_witness :
    (∃ s ∈ (["x"] : List String), s ≠ "+" ∧ s ≠ "-") ∧
    ((index 1 1 (.ok D2) (some [1]) ["x"] "" (true, "") none).error = true ∧
     (index 1 1 (.ok D2) (some [1]) ["x"] "" (true, "") none).invoked = false) :=
  ⟨by decide,
   bad_impact_rejected 1 1 D2 [1] ["x"] "" (true, "") none (by decide)⟩

/-- C8: when the computation succeeds, an email address is supplied and
the delivery step fails, the failure message is reported with the error
flag set, but the result table is still returned and LAST_RESULT_CSV holds
the newly computed result. -/
theorem email_failure_keeps_result (n m : ℕ) (d : Fin (n+1) → Fin m → ℝ)
    (w : List ℝ) (impacts : List String) (email msg : String)
    (last0 : Option CsvData)
    (hli : w.length = impacts.length) (hm : m = w.length)
    (hsym : ∀ s ∈ impacts, s = "+" ∨ s = "-")
    (hemail : email ≠ "")
    (r : (Fin (n+1) → ℝ) × (Fin (n+1) → ℤ))
    (hr : run_topsisOn n m d w impacts hm (hm.trans hli) = some r) :
    index n m (.ok d) (some w) impacts email (false, msg) last0 =
      ⟨msg, true, some ⟨n, m, d, r.1, r.2⟩, true, some ⟨n, m, d, r.1, r.2⟩⟩ := by
  simp only [index]
  rw [dif_neg (not_ne_iff.mpr hli), dif_neg (not_ne_iff.mpr hm),
    if_neg (no_bad_impacts hsym)]
  split
  · rename_i heq
    exact absurd (hr.symm.trans heq) (by simp)
  · rename_i r' heq
    have hrr : r = r' := Option.some_inj.mp (hr.symm.trans heq)
    subst hrr
    rw [if_pos hemail]
    rfl

/-- The handler invocation of `run_topsis` on D2 with weight list (1) and
impact list ("+"). -/
theorem run_topsisOn_D2 :
    run_topsisOn 1 1 D2 [(1:ℝ)] ["+"] rfl rfl =
      some (score D2 W1 I1, fun i => rankInt (score D2 W1 I1) i) := by
  unfold run_topsisOn
  exact (run_topsis_congr (fun j => by fin_cases j <;> rfl)
    (fun j => by fin_cases j <;> decide)).trans topsis_D2.1

/-- Witness for `email_failure_keeps_result` on D2 with a failing relay. -/
theorem email_failure_keeps_result_witness :
    (([(1:ℝ)]).length = (["+"] : List String).length ∧
     ("user@example.com" : String) ≠ "" ∧
     run_topsisOn 1 1 D2 [(1:ℝ)] ["+"] rfl rfl =
       some (score D2 W1 I1, fun i => rankInt (score D2 W1 I1) i)) ∧
    index 1 1 (.ok D2) (some [1]) ["+"] "user@example.com"
        (false, "Email error: relay unreachable") none =
      ⟨"Email error: relay unreachable", true,
        some ⟨1, 1, D2, score D2 W1 I1, fun i => rankInt (score D2 W1 I1) i⟩,
        true,
        some ⟨1, 1, D2, score D2 W1 I1, fun i => rankInt (score D2 W1 I1) i⟩⟩ :=
  ⟨⟨rfl, by decide, run_topsisOn_D2⟩,
   email_failure_keeps_result 1 1 D2 [1] ["+"] "user@example.com"
     "Email error: relay unreachable" none rfl rfl (by decide) (by decide) _
     run_topsisOn_D2⟩

/-- C9: validation never constrains the sign of the weights: this request,
whose weights (0, -1) parse as floats and include a zero and a negative
value, with matching lengths and valid impact symbols, passes validation
and `run_topsis` is invoked on it. -/
theorem negative_weights_accepted :
    ((0:ℝ) ∈ [(0:ℝ), -1] ∧ (-1:ℝ) ∈ [(0:ℝ), -1]) ∧
    (index 1 2 (.ok D9) (some [0, -1]) ["+", "+"] "" (true, "") none).invoked =
      true := by
  refine ⟨⟨by simp, by simp⟩, ?_⟩
  simp only [index]
  rw [dif_neg (by decide :
      ¬(([(0:ℝ), -1]).length ≠ (["+", "+"] : List String).length)),
    dif_neg (by decide : ¬((2:ℕ) ≠ ([(0:ℝ), -1]).length)),
    if_neg (by decide : ¬∃ s ∈ (["+", "+"] : List String), s ≠ "+" ∧ s ≠ "-")]
  split
  · rfl
  · rw [if_neg (by decide : ¬(("" : String) ≠ ""))]

/-- In every outcome of the handler, a present result table is exactly what
was stored in LAST_RESULT_CSV. -/
theorem index_last_eq_result (n m : ℕ)
    (df : Except String (Fin (n+1) → Fin m → ℝ)) (weights : Option (List ℝ))
    (impacts : List String) (email : String) (emailSend : Bool × String)
    (last0 : Option CsvData) :
    (index n m df weights impacts email emailSend last0).resultTable = none ∨
    (index n m df weights impacts email emailSend last0).lastResult =
      (index n m df weights impacts email emailSend last0).resultTable := by
  cases df with
  | error e => left; rfl
  | ok d =>
    cases weights with
    | none => left; rfl
    | some w =>
      simp only [index]
      split
      · left; rfl
      · split
        · left; rfl
        · split
          · left; rfl
          · split
            · left; rfl
            · split
              · right; rfl
              · right; rfl

/-- C10: `/download` on an empty buffer returns the message
"No result available to download." with HTTP status 400; and after any
request in which the computation succeeded (a result table was produced),
`/download` on the updated buffer serves exactly that newly stored
result. -/
theorem download_serves_last :
    download none = Except.error ("No result available to download.", 400) ∧
    ∀ (n m : ℕ) (df : Except String (Fin (n+1) → Fin m → ℝ))
      (weights : Option (List ℝ)) (impacts : List String) (email : String)
      (emailSend : Bool × String) (last0 : Option CsvData) (out : CsvData),
      (index n m df weights impacts email emailSend last0).resultTable =
        some out →
      download (index n m df weights impacts email emailSend last0).lastResult =
        Except.ok out := by
  constructor
  · rfl
  · intro n m df weights impacts email emailSend last0 out h
    rcases index_last_eq_result n m df weights impacts email emailSend last0 with
      h0 | h0
    · rw [h0] at h
      exact absurd h (by simp)
    · rw [h0, h]
      rfl

/-- The full outcome of a successful request on D2 (no email supplied). -/
theorem index_D2_success :
    index 1 1 (.ok D2) (some [1]) ["+"] "" (true, "") none =
      ⟨"TOPSIS calculated successfully.", false,
        some ⟨1, 1, D2, score D2 W1 I1, fun i => rankInt (score D2 W1 I1) i⟩,
        true,
        some ⟨1, 1, D2, score D2 W1 I1, fun i => rankInt (score D2 W1 I1) i⟩⟩ := by
  simp only [index]
  rw [dif_neg (by decide : ¬(([(1:ℝ)]).length ≠ (["+"] : List String).length)),
    dif_neg (by decide : ¬((1:ℕ) ≠ ([(1:ℝ)]).length)),
    if_neg (by decide : ¬∃ s ∈ (["+"] : List String), s ≠ "+" ∧ s ≠ "-")]
  split
  · rename_i heq
    exact absurd (run_topsisOn_D2.symm.trans heq) (by simp)
  · rename_i r heq
    have hrr : (score D2 W1 I1, fun i => rankInt (score D2 W1 I1) i) = r :=
      Option.some_inj.mp (run_topsisOn_D2.symm.trans heq)
    subst hrr
    rw [if_neg (by decide : ¬(("" : String) ≠ ""))]

/-- Witness for `download_serves_last` after the successful D2 request. -/
theorem download_serves_last_witness :
    (index 1 1 (.ok D2) (some [1]) ["+"] "" (true, "") none).resultTable =
      some ⟨1, 1, D2, score D2 W1 I1, fun i => rankInt (score D2 W1 I1) i⟩ ∧
    download (index 1 1 (.ok D2) (some [1]) ["+"] "" (true, "") none).lastResult =
      Except.ok ⟨1, 1, D2, score D2 W1 I1, fun i => rankInt (score D2 W1 I1) i⟩ :=
  have hres : (index 1 1 (.ok D2) (some [1]) ["+"] "" (true, "") none).resultTable =
      some ⟨1, 1, D2, score D2 W1 I1, fun i => rankInt (score D2 W1 I1) i⟩ := by
    rw [index_D2_success]
  ⟨hres,
   download_serves_last.2 1 1 (.ok D2) (some [1]) ["+"] "" (true, "") none _ hres⟩

end Topsis
